import Mathlib

/-!
Verification development for the FLAC-to-MP3 transcoding pipeline of
`salmon/converter/transcoding.py`.

The Python source is shallowly embedded: pure helpers become Lean functions
on `List Char` / `String`, Python dictionaries become association lists in
insertion order, exceptions become `Except` / `Option` results, and the
side-effecting parts (process spawning, temporary files, tag writing,
filesystem walks) become pure functions that return the sequence of effects
they would perform together with the relevant final state.
-/

namespace SmokedSalmon

/-! ## POSIX path model (`os.path` on Linux, as used by the source) -/

/-- Characters after the final slash, as in `posixpath.basename`. -/
def pathBasename (cs : List Char) : List Char :=
  (cs.reverse.takeWhile (fun c => c != '/')).reverse

/-- The prefix of the path up to and including the final slash (empty when
there is no slash), the intermediate value of `posixpath.dirname`. -/
def pathDirnameHead (cs : List Char) : List Char :=
  (cs.reverse.dropWhile (fun c => c != '/')).reverse

/-- Model of `posixpath.dirname`: everything before the final slash, with
trailing slashes stripped unless the head consists only of slashes. -/
def pathDirname (cs : List Char) : List Char :=
  let head := pathDirnameHead cs
  if head.all (fun c => c == '/') then head
  else (head.reverse.dropWhile (fun c => c == '/')).reverse

/-- Model of `posixpath.join` for two components, following the source of
`posixpath.join`: an absolute second component wins; otherwise a slash is
inserted unless the first component is empty or already ends in a slash. -/
def pathJoin (a b : List Char) : List Char :=
  if b.head? == some '/' then b
  else if a == [] || a.getLast? == some '/' then a ++ b
  else a ++ '/' :: b

/-! ## Regular expression model

The source uses two patterns: `FLAC_FOLDER_RE`, the pattern
bracket-`FLAC`-dot-star-bracket, and `LOSSLESS_FOLDER_RE`, the
case-insensitive word `Lossless`.  Both are modelled by match-at-position
functions returning the length of the (greedy, leftmost) match, plus generic
`search`/`sub` drivers with Python semantics. -/

/-- Index of the last occurrence of a character in a list, if any. -/
def lastIdxOf (c : Char) : List Char → Option Nat
  | [] => none
  | x :: xs =>
    match lastIdxOf c xs with
    | some n => some (n + 1)
    | none => if x == c then some 0 else none

/-- Length of the match of `FLAC_FOLDER_RE` at the head of the list, if any:
the literal `[FLAC`, then a greedy run of non-newline characters, then `]`.
Greediness means the match extends to the last `]` reachable without
crossing a newline. -/
def flacMatchLenAt (cs : List Char) : Option Nat :=
  if cs.take 5 == "[FLAC".toList then
    match lastIdxOf ']' ((cs.drop 5).takeWhile (fun c => c != '\n')) with
    | some j => some (5 + j + 1)
    | none => none
  else none

/-- Length of a case-insensitive match of the word `Lossless` at the head of
the list, if any (ASCII case folding, which covers the folder names the
source deals with). -/
def losslessMatchLenAt (cs : List Char) : Option Nat :=
  if (cs.take 8).map Char.toLower == "lossless".toList then some 8 else none

/-- Model of `re.search`: does the pattern match at some position? -/
def reSearch (matchAt : List Char → Option Nat) : List Char → Bool
  | [] => (matchAt []).isSome
  | c :: cs => (matchAt (c :: cs)).isSome || reSearch matchAt cs

/-- Worker for `re.sub`: scan left to right, replacing each leftmost
non-overlapping match.  The fuel bounds recursion; a match always consumes
at least one character, so fuel equal to the list length is exact. -/
def reSubAux (matchAt : List Char → Option Nat) (repl : List Char) :
    Nat → List Char → List Char
  | _, [] => []
  | 0, cs => cs
  | fuel + 1, c :: cs =>
    match matchAt (c :: cs) with
    | some (n + 1) => repl ++ reSubAux matchAt repl fuel (cs.drop n)
    | _ => c :: reSubAux matchAt repl fuel cs

/-- Model of `re.sub` (all occurrences, plain replacement text). -/
def reSub (matchAt : List Char → Option Nat) (repl cs : List Char) : List Char :=
  reSubAux matchAt repl cs.length cs

def flacFolderSearch (cs : List Char) : Bool := reSearch flacMatchLenAt cs

def flacFolderSub (repl cs : List Char) : List Char := reSub flacMatchLenAt repl cs

def losslessSearch (cs : List Char) : Bool := reSearch losslessMatchLenAt cs

def losslessSub (repl cs : List Char) : List Char := reSub losslessMatchLenAt repl cs

/-! ## `_build_output_path` -/

/-- Embedding of `_build_output_path`: compute the destination directory
path for a transcoded release from the source directory path and the
bitrate label, with the three folder-naming cases of the source. -/
def build_output_path (path bitrate : List Char) : List Char :=
  let foldername := pathBasename path
  let step : List Char × List (List Char) :=
    if flacFolderSearch foldername then
      if losslessSearch foldername then
        (losslessSub bitrate (flacFolderSub "MP3".toList foldername), [])
      else
        (flacFolderSub ("MP3 ".toList ++ bitrate) foldername, [])
    else if losslessSearch foldername then
      (losslessSub bitrate foldername, ["MP3".toList])
    else
      (foldername, ["MP3 ".toList ++ bitrate])
  let final :=
    if step.2.isEmpty then step.1
    else step.1 ++ " [".toList ++ List.intercalate " ".toList step.2 ++ "]".toList
  pathJoin (pathDirname path) final

/-! ## Tag dictionaries

Python `dict[str, list[str]]` values are embedded as association lists in
insertion order.  `dictSet` mirrors Python dict update: replacing the value
of an existing key keeps its position, a fresh key is appended at the
end. -/

/-- Association-list embedding of the tag dictionaries of the source. -/
abbrev Tags := List (String × List String)

/-- Model of the Python `in` test on a dict. -/
def dictContains (d : Tags) (k : String) : Bool :=
  d.any (fun p => p.1 == k)

/-- Model of Python dict indexing (returning `[]` for a missing key; the
source only indexes keys it has checked for). -/
def dictGet (d : Tags) (k : String) : List String :=
  match d.find? (fun p => p.1 == k) with
  | some p => p.2
  | none => []

/-- Replace the value of an entry when its key matches. -/
def setEntry (k : String) (v : List String) (p : String × List String) :
    String × List String :=
  if p.1 == k then (k, v) else p

/-- Model of Python dict update: in-place value replacement for an existing
key, append for a fresh key. -/
def dictSet (d : Tags) (k : String) (v : List String) : Tags :=
  if dictContains d k then d.map (setEntry k v) else d ++ [(k, v)]

/-- The track-total synonym set of `_TOT_MAP`, in source order. -/
def trackTots : List String := ["tracktotal", "totaltracks", "total tracks"]

/-- The disc-total synonym set of `_TOT_MAP`, in source order. -/
def discTots : List String := ["disctotal", "totaldiscs", "total discs"]

/-- Model of `str.startswith`. -/
def strStartsWith (s p : String) : Bool := p.toList.isPrefixOf s.toList

/-- Model of `str.endswith`. -/
def strEndsWith (s p : String) : Bool := p.toList.isSuffixOf s.toList

/-- Whitespace characters stripped by the Python `int` constructor. -/
def isPySpace (c : Char) : Bool :=
  c == ' ' || c == '\t' || c == '\n' || c == '\r' || c == '\x0b' || c == '\x0c'

/-- Decimal digit run to a natural number (none when empty or non-digit). -/
def digitsToNat (cs : List Char) : Option Nat :=
  if cs.isEmpty then none
  else if cs.all Char.isDigit then
    some (cs.foldl (fun a c => a * 10 + (c.toNat - 48)) 0)
  else none

/-- Model of the Python `int` constructor on strings: optional surrounding
whitespace, optional sign, decimal digits (digit-group underscores are not
modelled; the tags in question hold plain numbers). -/
def pyInt (s : String) : Option Int :=
  let cs := ((s.toList.dropWhile isPySpace).reverse.dropWhile isPySpace).reverse
  match cs with
  | '-' :: rest => (digitsToNat rest).map (fun n => -(n : Int))
  | '+' :: rest => (digitsToNat rest).map (fun n => (n : Int))
  | rest => (digitsToNat rest).map (fun n => (n : Int))

/-- Failure modes of `_prepare_tags`: the ValueError for conflicting totals
(carrying the offending synonym keys; the source iterates a Python set
whose order is unspecified, the model fixes synonym-table order), the
ValueError of the `int` constructor, and the IndexError from indexing an
empty value list. -/
inductive TagError
  | conflict (used : List String)
  | badInt (s : String)
  | emptyValues (k : String)
deriving DecidableEq, Repr

/-- Parse the first value of a key as an integer, as `int(result[t][0])`. -/
def parseFirstInt (d : Tags) (t : String) : Except TagError Int :=
  match (dictGet d t).head? with
  | none => .error (.emptyValues t)
  | some s =>
    match pyInt s with
    | none => .error (.badInt s)
    | some n => .ok n

/-- Parse the first values of all the given keys, failing on the first bad
one (the loop filling `tot_vals`). -/
def parseTotVals (d : Tags) : List String → Except TagError (List Int)
  | [] => .ok []
  | t :: ts =>
    match parseFirstInt d t with
    | .error e => .error e
    | .ok n =>
      match parseTotVals d ts with
      | .error e => .error e
      | .ok ns => .ok (n :: ns)

/-- All elements equal: the `len(tot_vals) == 1` test on the value set. -/
def allEqual : List Int → Bool
  | [] => true
  | n :: ns => ns.all (fun m => m == n)

/-- One iteration of the total-merging loop of `_prepare_tags`, for one
primary tag and its synonym set: skip when the primary key is absent or no
synonym is present; otherwise parse every present synonym's first value,
remove the synonym keys, and either rewrite the primary value to
`number/total` or fail with the conflict ValueError. -/
def prepareGroup (result : Tags) (tag : String) (tots : List String) :
    Except TagError Tags :=
  if dictContains result tag then
    let used := tots.filter (fun t => dictContains result t)
    if used.isEmpty then .ok result
    else
      match parseTotVals result used with
      | .error e => .error e
      | .ok totVals =>
        let cleaned := result.filter (fun p => !(used.contains p.1))
        if allEqual totVals then
          match (dictGet cleaned tag).head? with
          | none => .error (.emptyValues tag)
          | some nr =>
            .ok (dictSet cleaned tag [nr ++ "/" ++ toString (totVals.headD 0)])
        else .error (.conflict used)
  else .ok result

/-- The replaygain / encoder filtering step of `_prepare_tags`. -/
def pyFilterTags (tags : Tags) : Tags :=
  tags.filter (fun p => !(strStartsWith p.1 "replaygain") && !(p.1 == "encoder"))

/-- Embedding of `_prepare_tags`: drop replaygain and encoder keys, then
merge track totals and disc totals, in that order. -/
def prepare_tags (tags : Tags) : Except TagError Tags :=
  match prepareGroup (pyFilterTags tags) "tracknumber" trackTots with
  | .error e => .error e
  | .ok r1 =>
    match prepareGroup r1 "discnumber" discTots with
    | .error e => .error e
    | .ok r2 => .ok r2

/-- All six total-synonym keys. -/
def totalSynonymKeys : List String := trackTots ++ discTots

/-- A tag dictionary free of total-synonym keys. -/
def hasNoTotalKeys (d : Tags) : Bool :=
  d.all (fun p => !(totalSynonymKeys.contains p.1))

/-! ## File-name helpers for the validator, collector and copier -/

/-- The final component of a relative path. -/
def lastComponent (f : String) : String := ⟨pathBasename f.toList⟩

/-- ASCII lowercasing, as `str.lower` on the extension strings involved. -/
def strLower (s : String) : String := ⟨s.toList.map Char.toLower⟩

/-- Model of the extension part of `os.path.splitext`: leading dots of the
name never start an extension; the extension runs from the last remaining
dot. -/
def splitextExt (name : String) : String :=
  let cs := name.toList
  let lead := cs.takeWhile (fun c => c == '.')
  let rest := cs.drop lead.length
  match lastIdxOf '.' rest with
  | some i => ⟨rest.drop i⟩
  | none => ""

/-- Model of `pathlib.PurePath.suffix`: the part of the name from its last
dot, unless that dot is the first or the last character. -/
def pathlibSuffix (name : String) : String :=
  let cs := name.toList
  match lastIdxOf '.' cs with
  | some i => if 0 < i ∧ i < cs.length - 1 then ⟨cs.drop i⟩ else ""
  | none => ""

/-- Model of `pathlib.PurePath.with_suffix` with suffix `.mp3`: strip the
current suffix of the final component and append `.mp3`. -/
def withSuffixMp3 (f : String) : String :=
  let cs := f.toList
  let name := pathBasename cs
  let dir := cs.take (cs.length - name.length)
  let suff := (pathlibSuffix (⟨name⟩ : String)).toList
  ⟨dir ++ name.take (name.length - suff.length) ++ ".mp3".toList⟩

def LOSSY_EXTENSIONS : List String := [".mp3", ".m4a", ".ogg", ".opus"]

def COPY_EXTENSIONS : List String := [".jpg", ".jpeg", ".png", ".pdf", ".txt"]

/-- Embedding of `_validate_lossless` over the relative file paths of the
source tree: true when a lossy file is found (the source then echoes an
error and raises `click.Abort`).  The extension is lowercased before the
set test. -/
def validate_lossless (files : List String) : Bool :=
  files.any (fun f =>
    LOSSY_EXTENSIONS.contains (strLower (splitextExt (lastComponent f))))

/-- The sidecar test of `_copy_extra_files`: the pathlib suffix, lowercased,
against the copy-extension set. -/
def isSidecar (f : String) : Bool :=
  COPY_EXTENSIONS.contains (strLower (pathlibSuffix (lastComponent f)))

/-- Embedding of the rglob pattern `*.flac`: an fnmatch on the final path
component, case-sensitive as on POSIX. -/
def matchesFlacGlob (f : String) : Bool := strEndsWith (lastComponent f) ".flac"

/-- Insert into a sorted list of strings (stable). -/
def insertSorted (a : String) : List String → List String
  | [] => [a]
  | b :: bs => if a ≤ b then a :: b :: bs else b :: insertSorted a bs

/-- Deterministic sort of the matched paths, modelling Python `sorted`. -/
def sortStrings : List String → List String
  | [] => []
  | a :: as => insertSorted a (sortStrings as)

/-- Embedding of `_collect_transcode_items` at the path level: the relative
paths matched by the rglob pattern, in sorted order, each paired with its
destination relative path (extension swapped to `.mp3`).  Reading a file
and normalizing its tags is modelled separately by `prepare_tags`. -/
def collect_transcode_items (files : List String) : List (String × String) :=
  (sortStrings (files.filter matchesFlacGlob)).map (fun f => (f, withSuffixMp3 f))

/-! ## The top-level orchestration -/

/-- Abstract filesystem state for the top-level operation: the relative
paths of the files under the source directory, and which directories
currently exist. -/
structure FS where
  srcFiles : List String
  dirExists : String → Bool

/-- The three side-effecting phases of the full-run branch, in order. -/
inductive TopStep
  | collectItems
  | copyExtraFiles
  | transcodeAudio
deriving DecidableEq, Repr

/-- Embedding of `transcode_folder` at the control-flow level.  The abort
of the lossless validation is the error case.  Otherwise the destination
path is computed by the path namer; when the destination directory already
exists, the function returns it immediately, with no further phases and
the filesystem unchanged.  Otherwise the three phases run; a completed run
creates the destination directory whenever at least one audio item was
matched or at least one sidecar file is present (both phases create parent
directories lazily and idempotently), which the resulting filesystem
records. -/
def transcode_folder (fs : FS) (path bitrate : String) :
    Except Unit (String × List TopStep × FS) :=
  if validate_lossless fs.srcFiles then .error ()
  else
    let newPath : String := ⟨build_output_path path.toList bitrate.toList⟩
    if fs.dirExists newPath then .ok (newPath, [], fs)
    else
      let creates := !(collect_transcode_items fs.srcFiles).isEmpty
        || fs.srcFiles.any isSidecar
      .ok (newPath, [.collectItems, .copyExtraFiles, .transcodeAudio],
        FS.mk fs.srcFiles (fun d =>
          if d == newPath then (creates || fs.dirExists d) else fs.dirExists d))

/-! ## The per-item decode-encode pipeline -/

/-- Result of one external process run: exit code and decoded stderr text
(empty when the process wrote nothing). -/
structure ProcResult where
  returncode : Int
  stderr : String
deriving DecidableEq, Repr

/-- Environment of one decode-encode run: the outcomes the two spawned
processes would produce. -/
structure ConvEnv where
  flacProc : ProcResult
  lameProc : ProcResult
deriving DecidableEq, Repr

/-- Observable events of the per-item pipeline, in order: directory
creation, process spawns, console echoes, removal of the temporary file,
and the tag copy. -/
inductive ConvEvent
  | mkdirParent (dir : String)
  | spawn (cmd : List String)
  | echo (msg : String)
  | unlinkTmp (tmpPath : String)
  | copyTags (dst : String)
deriving DecidableEq, Repr

/-- Errors raised by the per-item pipeline: RuntimeError, the KeyError of
an unknown quality label, and the ValueError of the channel guard. -/
inductive ConvError
  | runtime (msg : String)
  | keyError (k : String)
  | valueError (msg : String)
deriving DecidableEq, Repr

def LAME_COMMAND_MAP : List (String × List String) :=
  [("V0", ["-V", "0", "--vbr-new"]), ("320", ["-b", "320", "-h"])]

def LAME_OPTIONS : List String := ["--quiet", "--add-id3v2", "--ignore-tag-errors"]

def FLAC_DECODE_OPTIONS : List String := ["-Vdsc"]

def ID3V2_VERSION : Nat := 4

/-- The decoder command line spawned by `_flac_to_mp3`. -/
def flacDecodeCmd (tmpPath flacPath : String) : List String :=
  ["flac"] ++ FLAC_DECODE_OPTIONS ++ ["-o", tmpPath, flacPath]

/-- The encoder command line spawned by `_flac_to_mp3`. -/
def lameEncodeCmd (flags : List String) (tmpPath mp3Path : String) : List String :=
  ["lame"] ++ flags ++ LAME_OPTIONS ++ [tmpPath, mp3Path]

/-- Outcome of the per-item pipeline: the raised error if any, the events
in order, and whether the temporary file still exists afterwards. -/
structure ConvOutcome where
  result : Option ConvError
  events : List ConvEvent
  tmpExistsAfter : Bool
deriving DecidableEq, Repr

/-- The try-block body of `_flac_to_mp3`: run the decoder (echoing its
stderr and raising on a non-zero exit, the error carrying the exit code),
look up the encoder preset, run the encoder (raising on a non-zero exit,
the error carrying the captured stderr or a fixed message).  Returns the
raised error if any, the events of the body, and whether the temporary
file exists at the end of the body (it was created just before the try and
no statement of the body removes it). -/
def flacToMp3Body (env : ConvEnv) (lameQual flacPath mp3Path tmpPath : String) :
    Option ConvError × List ConvEvent × Bool :=
  let flacCmd := flacDecodeCmd tmpPath flacPath
  if env.flacProc.returncode != 0 then
    let echoes := if env.flacProc.stderr != "" then [ConvEvent.echo env.flacProc.stderr]
      else []
    (some (.runtime ("FLAC decoding failed with code "
        ++ toString env.flacProc.returncode)),
     ConvEvent.spawn flacCmd :: echoes, true)
  else
    match LAME_COMMAND_MAP.find? (fun p => p.1 == lameQual) with
    | none => (some (.keyError lameQual), [ConvEvent.spawn flacCmd], true)
    | some p =>
      let lameCmd := lameEncodeCmd p.2 tmpPath mp3Path
      if env.lameProc.returncode != 0 then
        (some (.runtime (if env.lameProc.stderr != "" then env.lameProc.stderr
            else "LAME encoding failed")),
         [ConvEvent.spawn flacCmd, ConvEvent.spawn lameCmd], true)
      else (none, [ConvEvent.spawn flacCmd, ConvEvent.spawn lameCmd], true)

/-- The finally block of `_flac_to_mp3`: if the temporary file still
exists, unlink it. -/
def finallyCleanup (tmpPath : String) (st : List ConvEvent × Bool) :
    List ConvEvent × Bool :=
  if st.2 then (st.1 ++ [ConvEvent.unlinkTmp tmpPath], false) else st

/-- Embedding of `_flac_to_mp3`: create the destination parent directory,
create the temporary file, then run the try body followed unconditionally
by the finally block - on the return path and the raise path alike. -/
def flac_to_mp3 (env : ConvEnv) (lameQual flacPath mp3Path tmpPath : String) :
    ConvOutcome :=
  let body := flacToMp3Body env lameQual flacPath mp3Path tmpPath
  let fin := finallyCleanup tmpPath body.2
  ConvOutcome.mk body.1
    (ConvEvent.mkdirParent (⟨pathDirname mp3Path.toList⟩ : String) :: fin.1)
    fin.2

/-- Embedding of `_transcode_one`: the channel guard (raising before any
event when the source has more than two channels), the Encoding echo, the
decode-encode pipeline, and on success the tag copy. -/
def transcode_one (env : ConvEnv) (channels : Nat) (bitrate src dst tmpPath : String) :
    ConvOutcome :=
  if channels > 2 then
    ConvOutcome.mk
      (some (.valueError (src ++ " has " ++ toString channels
        ++ " channels. Cannot convert to MP3.")))
      [] false
  else
    let conv := flac_to_mp3 env bitrate src dst tmpPath
    match conv.result with
    | some e =>
      ConvOutcome.mk (some e)
        (ConvEvent.echo ("Encoding: " ++ dst) :: conv.events)
        conv.tmpExistsAfter
    | none =>
      ConvOutcome.mk none
        (ConvEvent.echo ("Encoding: " ++ dst) :: conv.events
          ++ [ConvEvent.copyTags dst])
        conv.tmpExistsAfter

/-- Substring occurrence test on character lists. -/
def listContainsSub (sub : List Char) : List Char → Bool
  | [] => sub.isEmpty
  | c :: cs => sub.isPrefixOf (c :: cs) || listContainsSub sub cs

/-- Substring occurrence test on strings. -/
def strContains (s sub : String) : Bool := listContainsSub sub.toList s.toList

/-! ## The tag writer -/

/-- The frames a tag container of the destination format can receive. -/
inductive ID3Frame
  | text (frameId : String) (frameText : List String)
  | txxx (desc : String) (frameText : List String)
  | apic (mime : String) (picType : Nat) (desc : String) (dat : List Nat)
deriving DecidableEq, Repr

def VORBIS_TO_ID3_MAP : List (String × String) :=
  [("title", "TIT2"), ("album", "TALB"), ("artist", "TPE1"), ("albumartist", "TPE2"),
   ("album artist", "TPE2"), ("conductor", "TPE3"), ("remixer", "TPE4"),
   ("composer", "TCOM"), ("tracknumber", "TRCK"), ("discnumber", "TPOS"),
   ("date", "TDRC"), ("comment", "COMM"), ("genre", "TCON"), ("language", "TLAN"),
   ("key", "TKEY"), ("bpm", "TBPM"), ("publisher", "TPUB"), ("label", "TPUB"),
   ("isrc", "TSRC")]

/-- Embedding of `_get_id3_frame`: a key with a known mapping becomes a
text frame of the mapped identifier, any other key becomes a TXXX frame
whose description is the key; both carry the full value sequence. -/
def get_id3_frame (tagName : String) (tagValue : List String) : ID3Frame :=
  match VORBIS_TO_ID3_MAP.find? (fun p => p.1 == tagName) with
  | some p => .text p.2 tagValue
  | none => .txxx tagName tagValue

/-- An embedded picture of the source FLAC handle. -/
structure FlacPicture where
  mime : String
  picType : Nat
  desc : String
  dat : List Nat
deriving DecidableEq, Repr

/-- The arguments of the final save call: the v1 mode and the id3v2
version. -/
structure SaveArgs where
  v1 : Nat
  v2_version : Nat
deriving DecidableEq, Repr

/-- Embedding of `_copy_tags`: the frames added to the destination tag
container, in order - one frame per normalized tag key, then one APIC
frame per embedded picture preserving mime, type, description and bytes -
and the save arguments (no id3v1, fixed id3v2 version). -/
def copy_tags (tagDict : Tags) (pictures : List FlacPicture) :
    List ID3Frame × SaveArgs :=
  (tagDict.map (fun p => get_id3_frame p.1 p.2)
      ++ pictures.map (fun pic => ID3Frame.apic pic.mime pic.picType pic.desc pic.dat),
   SaveArgs.mk 0 ID3V2_VERSION)

/-! ## The description generator -/

/-- Embedding of `generate_transcode_description` (`none` models the
KeyError on an unknown label). -/
def generate_transcode_description (url bitrate : String) : Option String :=
  match ([("320", "-h -b 320 --ignore-tag-errors"),
          ("V0", "-V 0 --vbr-new --ignore-tag-errors")]
      : List (String × String)).find? (fun p => p.1 == bitrate) with
  | none => none
  | some p =>
    some ("[b]Source:[/b] " ++ url
      ++ "\n[b]Transcode process:[/b] [code]flac -dcs -- input.flac | lame -S "
      ++ p.2 ++ " - output.mp3[/code]\n")

/-- A concrete filesystem for the C5 witness: one audio file, one sidecar
file, and the destination directory already present. -/
def c5fs : FS :=
  FS.mk ["01 Song.flac", "cover.jpg"] (fun d => d == "/m/Abc MP3 V0")

/-! ## Claims C1 and C2: the bracket cases of the Path Namer -/

/-- C1 (counterexample): for basename `Artist - Album [FLAC]` and label
`V0` the claimed output `Artist - Album [MP3 V0]` is not produced: the
substitution replaces the entire bracket token, brackets included. -/
theorem c1_counterexample :
    build_output_path "/music/Artist - Album [FLAC]".toList "V0".toList
      ≠ "/music/Artist - Album [MP3 V0]".toList := by decide

/-- C1 (amended): when the basename matches the lossless-format bracket
pattern but not the word `Lossless`, the result lives in the same parent
directory and its basename is the source basename with the whole bracket
token (brackets included) replaced by `MP3 <label>`; no new bracket is
appended.  In particular `Artist - Album [FLAC]` with label `V0` becomes
`Artist - Album MP3 V0`. -/
theorem c1_amended :
    (∀ path label : List Char,
        flacFolderSearch (pathBasename path) = true →
        losslessSearch (pathBasename path) = false →
        build_output_path path label
          = pathJoin (pathDirname path)
              (flacFolderSub ("MP3 ".toList ++ label) (pathBasename path)))
    ∧ build_output_path "/music/Artist - Album [FLAC]".toList "V0".toList
        = "/music/Artist - Album MP3 V0".toList := by
  constructor
  · intro path label hb hl
    simp only [build_output_path, hb, hl, if_true, if_false, Bool.false_eq_true,
      List.isEmpty_nil, ite_true]
  · decide

/-- C1 (witness): the general bracket-no-lossless case applied at a
concrete folder. -/
theorem c1_witness :
    build_output_path "/m/Abc [FLAC best]".toList "V0".toList
      = pathJoin (pathDirname "/m/Abc [FLAC best]".toList)
          (flacFolderSub ("MP3 ".toList ++ "V0".toList)
            (pathBasename "/m/Abc [FLAC best]".toList)) :=
  c1_amended.1 _ _ (by decide) (by decide)

/-- C2 (counterexample): for basename `Artist - Album [FLAC Lossless]` and
label `320` the claimed output `Artist - Album [MP3 320]` is not produced:
the bracket substitution runs first and swallows the `Lossless` word
together with the brackets, so the label never appears. -/
theorem c2_counterexample :
    build_output_path "/music/Artist - Album [FLAC Lossless]".toList "320".toList
      ≠ "/music/Artist - Album [MP3 320]".toList := by decide

/-- C2 (amended): when the basename matches both the lossless-format
bracket pattern and the word `Lossless`, the whole bracket token is first
replaced by `MP3`, and only `Lossless` occurrences surviving that
substitution are replaced by the label.  For
`Artist - Album [FLAC Lossless]` and label `320` the `Lossless` word was
inside the bracket, so the label is dropped and the result basename is
`Artist - Album MP3`. -/
theorem c2_amended :
    (∀ path label : List Char,
        flacFolderSearch (pathBasename path) = true →
        losslessSearch (pathBasename path) = true →
        build_output_path path label
          = pathJoin (pathDirname path)
              (losslessSub label (flacFolderSub "MP3".toList (pathBasename path))))
    ∧ build_output_path "/music/Artist - Album [FLAC Lossless]".toList "320".toList
        = "/music/Artist - Album MP3".toList := by
  constructor
  · intro path label hb hl
    simp only [build_output_path, hb, hl, if_true, List.isEmpty_nil, ite_true]
  · decide

/-- C2 (witness): the general bracket-and-lossless case applied at a
concrete folder. -/
theorem c2_witness :
    build_output_path "/m/Abc [FLAC Lossless]".toList "320".toList
      = pathJoin (pathDirname "/m/Abc [FLAC Lossless]".toList)
          (losslessSub "320".toList
            (flacFolderSub "MP3".toList (pathBasename "/m/Abc [FLAC Lossless]".toList))) :=
  c2_amended.1 _ _ (by decide) (by decide)

/-! ## Dictionary lemmas -/

lemma dictContains_eq_isSome (d : Tags) (k : String) :
    dictContains d k = (d.find? (fun p => p.1 == k)).isSome := by
  induction d with
  | nil => rfl
  | cons p ps ih =>
    cases hb : (p.1 == k) with
    | true => simp [dictContains, List.any_cons, List.find?_cons, hb]
    | false =>
      simp only [dictContains, List.any_cons, List.find?_cons, hb, Bool.false_or]
      exact ih

lemma dictContains_false_iff {d : Tags} {k : String} :
    dictContains d k = false ↔ ∀ p ∈ d, p.1 ≠ k := by
  constructor
  · intro h p hp hk
    have h2 : dictContains d k = true := by
      simp only [dictContains, List.any_eq_true]
      exact ⟨p, hp, by simp [hk]⟩
    rw [h] at h2
    cases h2
  · intro h
    cases hc : dictContains d k with
    | false => rfl
    | true =>
      simp only [dictContains, List.any_eq_true] at hc
      obtain ⟨p, hp, hpk⟩ := hc
      exact absurd (by simpa using hpk) (h p hp)

lemma contains_iff_mem {l : List String} {a : String} :
    l.contains a = true ↔ a ∈ l := by
  induction l with
  | nil => simp
  | cons x xs ih => simp [List.contains_cons, ih]

lemma contains_filter_false {f : String → Bool} {k : String} {l : List String}
    (h : l.contains k = false) : (l.filter f).contains k = false := by
  rw [← Bool.not_eq_true] at h ⊢
  intro hb
  exact h (contains_iff_mem.mpr (List.mem_filter.mp (contains_iff_mem.mp hb)).1)

lemma contains_filter_true {f : String → Bool} {k : String} {l : List String}
    (hmem : k ∈ l) (hf : f k = true) : (l.filter f).contains k = true :=
  contains_iff_mem.mpr (List.mem_filter.mpr ⟨hmem, hf⟩)

lemma dictContains_filter_false {d : Tags} {f : String × List String → Bool} {k : String}
    (h : dictContains d k = false) : dictContains (d.filter f) k = false := by
  rw [dictContains_false_iff] at h ⊢
  exact fun p hp => h p (List.mem_filter.mp hp).1

lemma find?_filter_key_safe {f : String × List String → Bool} {k : String}
    (hf : ∀ v, f (k, v) = true) :
    ∀ d : Tags, (d.filter f).find? (fun p => p.1 == k) = d.find? (fun p => p.1 == k)
  | [] => rfl
  | (a, b) :: ps => by
    by_cases hk : a = k
    · have hfp : f (a, b) = true := by rw [hk]; exact hf b
      have hb : ((a, b).1 == k) = true := by simp [hk]
      simp [List.filter_cons, hfp, List.find?_cons, hb]
    · have hb : ((a, b).1 == k) = false := by simp [hk]
      cases hfp : f (a, b) with
      | true => simp [List.filter_cons, hfp, List.find?_cons, hb, find?_filter_key_safe hf ps]
      | false => simp [List.filter_cons, hfp, List.find?_cons, hb, find?_filter_key_safe hf ps]

lemma dictContains_filter_key_safe {f : String × List String → Bool} {k : String}
    (hf : ∀ v, f (k, v) = true) (d : Tags) :
    dictContains (d.filter f) k = dictContains d k := by
  rw [dictContains_eq_isSome, dictContains_eq_isSome, find?_filter_key_safe hf]

lemma dictGet_filter_key_safe {f : String × List String → Bool} {k : String}
    (hf : ∀ v, f (k, v) = true) (d : Tags) :
    dictGet (d.filter f) k = dictGet d k := by
  unfold dictGet
  rw [find?_filter_key_safe hf]

lemma dictContains_filter_killed {f : String × List String → Bool} {k : String}
    (hf : ∀ v, f (k, v) = false) (d : Tags) :
    dictContains (d.filter f) k = false := by
  rw [dictContains_false_iff]
  rintro ⟨a, b⟩ hp hk
  rcases List.mem_filter.mp hp with ⟨-, hfp⟩
  simp only at hk
  rw [hk, hf b] at hfp
  cases hfp

lemma find?_map_set_self (k : String) (v : List String) :
    ∀ d : Tags, dictContains d k = true →
      (d.map (setEntry k v)).find? (fun p => p.1 == k) = some (k, v)
  | [], h => by simp [dictContains] at h
  | (a, b) :: ps, h => by
    by_cases ha : a = k
    · have h1 : setEntry k v (a, b) = (k, v) := by simp [setEntry, ha]
      simp [List.find?_cons, h1]
    · have h1 : setEntry k v (a, b) = (a, b) := by simp [setEntry, ha]
      have h2 : dictContains ps k = true := by
        simpa [dictContains, List.any_cons, ha] using h
      have hb : ((a, b).1 == k) = false := by simp [ha]
      simp only [List.map_cons, List.find?_cons, h1, hb]
      exact find?_map_set_self k v ps h2

lemma find?_map_set_ne (k j : String) (v : List String) (hjk : (j == k) = false) :
    ∀ d : Tags,
      (d.map (setEntry k v)).find? (fun p => p.1 == j) = d.find? (fun p => p.1 == j)
  | [] => rfl
  | (a, b) :: ps => by
    have hne : j ≠ k := beq_eq_false_iff_ne.mp hjk
    by_cases ha : a = k
    · have h1 : setEntry k v (a, b) = (k, v) := by simp [setEntry, ha]
      have h2 : ((k, v).1 == j) = false := by simp [Ne.symm hne]
      have h3 : ((a, b).1 == j) = false := by
        simp only [ha]
        exact h2
      simp only [List.map_cons, List.find?_cons, h1, h2, h3]
      exact find?_map_set_ne k j v hjk ps
    · have h1 : setEntry k v (a, b) = (a, b) := by simp [setEntry, ha]
      by_cases haj : a = j
      · have h2 : ((a, b).1 == j) = true := by simp [haj]
        simp only [List.map_cons, List.find?_cons, h1, h2]
      · have h2 : ((a, b).1 == j) = false := by simp [haj]
        simp only [List.map_cons, List.find?_cons, h1, h2]
        exact find?_map_set_ne k j v hjk ps

lemma find?_append_singleton (d : Tags) (k j : String) (v : List String) :
    (d ++ [(k, v)]).find? (fun p => p.1 == j)
      = ((d.find? (fun p => p.1 == j)).or (if k == j then some (k, v) else none)) := by
  induction d with
  | nil => cases hkj : (k == j) <;> simp [List.find?_cons, hkj]
  | cons p ps ih =>
    cases hb : (p.1 == j) with
    | true => simp [List.find?_cons, hb]
    | false => simp [List.find?_cons, hb, ih]

lemma find?_dictSet_ne (d : Tags) (k j : String) (v : List String)
    (hjk : (j == k) = false) :
    (dictSet d k v).find? (fun p => p.1 == j) = d.find? (fun p => p.1 == j) := by
  have hkj : (k == j) = false := by
    have : j ≠ k := by simpa using hjk
    simp [Ne.symm this]
  unfold dictSet
  cases hc : dictContains d k with
  | true => simp only [if_true]; exact find?_map_set_ne k j v hjk d
  | false =>
    simp only [Bool.false_eq_true, if_false]
    rw [find?_append_singleton, hkj]
    simp

lemma dictGet_dictSet_self (d : Tags) (k : String) (v : List String) :
    dictGet (dictSet d k v) k = v := by
  unfold dictGet dictSet
  cases hc : dictContains d k with
  | true =>
    simp only [if_true]
    rw [find?_map_set_self k v d hc]
  | false =>
    simp only [Bool.false_eq_true, if_false]
    rw [find?_append_singleton]
    have : d.find? (fun p => p.1 == k) = none := by
      have h2 := dictContains_eq_isSome d k
      rw [hc] at h2
      exact Option.not_isSome_iff_eq_none.mp (by rw [← h2]; simp)
    rw [this]
    simp

lemma dictGet_dictSet_ne (d : Tags) (k j : String) (v : List String)
    (hjk : (j == k) = false) : dictGet (dictSet d k v) j = dictGet d j := by
  unfold dictGet
  rw [find?_dictSet_ne d k j v hjk]

lemma dictContains_dictSet_ne (d : Tags) (k j : String) (v : List String)
    (hjk : (j == k) = false) : dictContains (dictSet d k v) j = dictContains d j := by
  rw [dictContains_eq_isSome, dictContains_eq_isSome, find?_dictSet_ne d k j v hjk]

/-! ## Lemmas about one merge-loop iteration -/

lemma prepareGroup_find?_preserved {result r : Tags} {tag : String} {tots : List String}
    (k : String) (hres : prepareGroup result tag tots = .ok r)
    (hk1 : (k == tag) = false) (hk2 : tots.contains k = false) :
    r.find? (fun p => p.1 == k) = result.find? (fun p => p.1 == k) := by
  simp only [prepareGroup] at hres
  split at hres
  · split at hres
    · cases hres
      rfl
    · split at hres
      · cases hres
      · split at hres
        · split at hres
          · cases hres
          · rename_i nr hnr
            cases hres
            rw [find?_dictSet_ne _ _ _ _ hk1]
            apply find?_filter_key_safe
            intro v
            have hu : (tots.filter (fun t => dictContains result t)).contains k = false :=
              contains_filter_false hk2
            simp only [hu, Bool.not_false]
        · cases hres
  · cases hres
    rfl

lemma prepareGroup_removes_tots {result r : Tags} {tag : String} {tots : List String}
    (hres : prepareGroup result tag tots = .ok r)
    (hcont : dictContains result tag = true)
    (htagtots : tots.contains tag = false)
    {t : String} (ht : t ∈ tots) :
    dictContains r t = false := by
  have httag : (t == tag) = false := by
    apply beq_eq_false_iff_ne.mpr
    intro he
    rw [he] at ht
    exact absurd (contains_iff_mem.mpr ht) (by rw [htagtots]; simp)
  simp only [prepareGroup, hcont, if_true] at hres
  split at hres
  · rename_i hused
    cases hres
    rw [List.isEmpty_iff] at hused
    cases hrt : dictContains result t with
    | false => rfl
    | true =>
      have : t ∈ tots.filter (fun s => dictContains result s) :=
        List.mem_filter.mpr ⟨ht, hrt⟩
      rw [hused] at this
      cases this
  · split at hres
    · cases hres
    · split at hres
      · split at hres
        · cases hres
        · rename_i nr hnr
          cases hres
          rw [dictContains_dictSet_ne _ _ _ _ httag]
          cases hrt : dictContains result t with
          | true =>
            apply dictContains_filter_killed
            intro v
            have hu : (tots.filter (fun s => dictContains result s)).contains t = true :=
              contains_filter_true ht hrt
            simp only [hu, Bool.not_true]
          | false => exact dictContains_filter_false hrt
      · cases hres

lemma prepareGroup_ok_shape {result : Tags} {tag : String} {tots : List String}
    (hcont : dictContains result tag = true)
    (htagtots : tots.contains tag = false)
    (hused : tots.filter (fun s => dictContains result s) ≠ [])
    {vs : List Int}
    (hparse : parseTotVals result (tots.filter (fun s => dictContains result s)) = .ok vs)
    (hall : allEqual vs = true)
    {nr : String} (hnr : (dictGet result tag).head? = some nr) :
    prepareGroup result tag tots
      = .ok (dictSet
          (result.filter
            (fun p => !((tots.filter (fun s => dictContains result s)).contains p.1)))
          tag [nr ++ "/" ++ toString (vs.headD 0)]) := by
  have hne : (tots.filter (fun s => dictContains result s)).isEmpty = false := by
    cases hl : tots.filter (fun s => dictContains result s) with
    | nil => exact absurd hl hused
    | cons x xs => rfl
  have hgetclean :
      dictGet (result.filter
        (fun p => !((tots.filter (fun s => dictContains result s)).contains p.1))) tag
        = dictGet result tag := by
    apply dictGet_filter_key_safe
    intro v
    have hu : (tots.filter (fun s => dictContains result s)).contains tag = false :=
      contains_filter_false htagtots
    simp only [hu, Bool.not_false]
  simp only [prepareGroup, hcont, if_true, hne, Bool.false_eq_true, if_false,
    hparse, hall, if_true, hgetclean, hnr]

lemma prepareGroup_conflict {result : Tags} {tag : String} {tots : List String}
    (hcont : dictContains result tag = true)
    (hused : tots.filter (fun s => dictContains result s) ≠ [])
    {vs : List Int}
    (hparse : parseTotVals result (tots.filter (fun s => dictContains result s)) = .ok vs)
    (hall : allEqual vs = false) :
    prepareGroup result tag tots
      = .error (.conflict (tots.filter (fun s => dictContains result s))) := by
  have hne : (tots.filter (fun s => dictContains result s)).isEmpty = false := by
    cases hl : tots.filter (fun s => dictContains result s) with
    | nil => exact absurd hl hused
    | cons x xs => rfl
  simp only [prepareGroup, hcont, if_true, hne, Bool.false_eq_true, if_false,
    hparse, hall]

lemma prepareGroup_empty_primary {result : Tags} {tag : String} {tots : List String}
    (hcont : dictContains result tag = true)
    (htagtots : tots.contains tag = false)
    (hused : tots.filter (fun s => dictContains result s) ≠ [])
    {vs : List Int}
    (hparse : parseTotVals result (tots.filter (fun s => dictContains result s)) = .ok vs)
    (hall : allEqual vs = true)
    (hnr : (dictGet result tag).head? = none) :
    prepareGroup result tag tots = .error (.emptyValues tag) := by
  have hne : (tots.filter (fun s => dictContains result s)).isEmpty = false := by
    cases hl : tots.filter (fun s => dictContains result s) with
    | nil => exact absurd hl hused
    | cons x xs => rfl
  have hgetclean :
      dictGet (result.filter
        (fun p => !((tots.filter (fun s => dictContains result s)).contains p.1))) tag
        = dictGet result tag := by
    apply dictGet_filter_key_safe
    intro v
    have hu : (tots.filter (fun s => dictContains result s)).contains tag = false :=
      contains_filter_false htagtots
    simp only [hu, Bool.not_false]
  simp only [prepareGroup, hcont, if_true, hne, Bool.false_eq_true, if_false,
    hparse, hall, hgetclean, hnr]

/-! ## Lemmas about the replaygain / encoder filter -/

lemma pyFilter_find?_safe (k : String) (h1 : strStartsWith k "replaygain" = false)
    (h2 : (k == "encoder") = false) (tags : Tags) :
    (pyFilterTags tags).find? (fun p => p.1 == k) = tags.find? (fun p => p.1 == k) := by
  apply find?_filter_key_safe
  intro v
  simp only [h1, h2, Bool.not_false, Bool.and_self]

lemma dictContains_pyFilter (k : String) (h1 : strStartsWith k "replaygain" = false)
    (h2 : (k == "encoder") = false) (tags : Tags) :
    dictContains (pyFilterTags tags) k = dictContains tags k := by
  rw [dictContains_eq_isSome, dictContains_eq_isSome, pyFilter_find?_safe k h1 h2]

lemma dictGet_pyFilter (k : String) (h1 : strStartsWith k "replaygain" = false)
    (h2 : (k == "encoder") = false) (tags : Tags) :
    dictGet (pyFilterTags tags) k = dictGet tags k := by
  unfold dictGet
  rw [pyFilter_find?_safe k h1 h2]

lemma trackTots_safe {s : String} (hs : s ∈ trackTots) :
    strStartsWith s "replaygain" = false ∧ (s == "encoder") = false := by
  simp only [trackTots, List.mem_cons, List.not_mem_nil, or_false] at hs
  rcases hs with rfl | rfl | rfl <;> exact ⟨by decide, by decide⟩

lemma trackUsed_pyFilter (tags : Tags) :
    trackTots.filter (fun s => dictContains (pyFilterTags tags) s)
      = trackTots.filter (fun s => dictContains tags s) := by
  have h1 := dictContains_pyFilter "tracktotal" (by decide) (by decide) tags
  have h2 := dictContains_pyFilter "totaltracks" (by decide) (by decide) tags
  have h3 := dictContains_pyFilter "total tracks" (by decide) (by decide) tags
  simp only [trackTots, List.filter_cons, List.filter_nil, h1, h2, h3]

/-! ## Congruence and constant-list helpers for total parsing -/

lemma parseTotVals_congr {d1 d2 : Tags} :
    ∀ l : List String, (∀ s ∈ l, dictGet d1 s = dictGet d2 s) →
      parseTotVals d1 l = parseTotVals d2 l
  | [], _ => rfl
  | t :: ts, h => by
    have h1 : dictGet d1 t = dictGet d2 t := h t (by simp)
    have h2 := parseTotVals_congr ts (fun s hs => h s (by simp [hs]))
    simp only [parseTotVals, parseFirstInt, h1, h2]

lemma parseTotVals_const {d : Tags} {t : Int} :
    ∀ l : List String, (∀ s ∈ l, parseFirstInt d s = .ok t) →
      parseTotVals d l = .ok (l.map (fun _ => t))
  | [], _ => rfl
  | s :: ss, h => by
    have h1 : parseFirstInt d s = .ok t := h s (by simp)
    have h2 := parseTotVals_const ss (fun x hx => h x (by simp [hx]))
    simp only [parseTotVals, h1, h2, List.map_cons]

lemma allEqual_map_const (t : Int) : ∀ l : List String, allEqual (l.map (fun _ => t)) = true
  | [] => rfl
  | s :: ss => by
    simp only [List.map_cons, allEqual, List.all_eq_true]
    intro x hx
    simp only [List.mem_map] at hx
    obtain ⟨y, -, rfl⟩ := hx
    simp

lemma headD_map_const (t : Int) {l : List String} (h : l ≠ []) :
    (l.map (fun _ => t)).headD 0 = t := by
  cases l with
  | nil => exact absurd rfl h
  | cons x xs => rfl

lemma headD_eq_of_head? {l : List String} {a : String} (h : l.head? = some a) :
    l.headD "" = a := by
  cases l with
  | nil => cases h
  | cons x xs =>
    simp only [List.head?_cons, Option.some.injEq] at h
    simp [List.headD_cons, h]

lemma hasNoTotalKeys_iff {d : Tags} :
    hasNoTotalKeys d = true ↔ ∀ t ∈ totalSynonymKeys, dictContains d t = false := by
  constructor
  · intro h t htmem
    rw [dictContains_false_iff]
    intro p hp hk
    have hall := List.all_eq_true.mp h p hp
    rw [hk] at hall
    have h2 : totalSynonymKeys.contains t = true := contains_iff_mem.mpr htmem
    rw [h2] at hall
    cases hall
  · intro h
    apply List.all_eq_true.mpr
    intro p hp
    cases hcm : totalSynonymKeys.contains p.1 with
    | false => simp [hcm]
    | true =>
      have h3 := h p.1 (contains_iff_mem.mp hcm)
      rw [dictContains_false_iff] at h3
      exact absurd rfl (h3 p hp)

/-! ## Claim C3: the no-total-keys invariant -/

/-- C3 (counterexample): when a total-synonym key is present without its
primary key, `_prepare_tags` succeeds and the synonym key survives in the
output, so the result is neither merged nor a failure. -/
theorem c3_counterexample :
    prepare_tags [("tracktotal", ["12"])] = .ok [("tracktotal", ["12"])]
      ∧ hasNoTotalKeys [("tracktotal", ["12"])] = false :=
  ⟨rfl, rfl⟩

/-- C3 (amended): the invariant holds per merge group whenever that group's
primary key is present in the input: on success the output contains none of
that group's total-synonym keys, and with both primary keys present the
output contains no total-synonym key at all.  (When a primary key is
absent, its group is skipped and its synonym keys pass through, as the
counterexample shows.) -/
theorem c3_amended (tags out : Tags) (hok : prepare_tags tags = .ok out) :
    (dictContains tags "tracknumber" = true →
        ∀ s ∈ trackTots, dictContains out s = false)
    ∧ (dictContains tags "discnumber" = true →
        ∀ s ∈ discTots, dictContains out s = false)
    ∧ (dictContains tags "tracknumber" = true →
        dictContains tags "discnumber" = true →
        hasNoTotalKeys out = true) := by
  unfold prepare_tags at hok
  split at hok
  · cases hok
  · rename_i r1 heq1
    split at hok
    · cases hok
    · rename_i r2 heq2
      injection hok with hout
      cases hout.symm
      have htrack : dictContains tags "tracknumber" = true →
          ∀ s ∈ trackTots, dictContains out s = false := by
        intro hc s hs
        have hs' := hs
        have hcf : dictContains (pyFilterTags tags) "tracknumber" = true := by
          rw [dictContains_pyFilter "tracknumber" (by decide) (by decide)]
          exact hc
        have h1 : dictContains r1 s = false :=
          prepareGroup_removes_tots heq1 hcf (by decide) hs
        have hs2 : (s == "discnumber") = false ∧ discTots.contains s = false := by
          simp only [trackTots, List.mem_cons, List.not_mem_nil, or_false] at hs'
          rcases hs' with rfl | rfl | rfl <;> exact ⟨by decide, by decide⟩
        have h2 := prepareGroup_find?_preserved s heq2 hs2.1 hs2.2
        rw [dictContains_eq_isSome, h2, ← dictContains_eq_isSome]
        exact h1
      have hdisc : dictContains tags "discnumber" = true →
          ∀ s ∈ discTots, dictContains out s = false := by
        intro hc s hs
        have hcf : dictContains (pyFilterTags tags) "discnumber" = true := by
          rw [dictContains_pyFilter "discnumber" (by decide) (by decide)]
          exact hc
        have hpres := prepareGroup_find?_preserved "discnumber" heq1 (by decide) (by decide)
        have hcr1 : dictContains r1 "discnumber" = true := by
          rw [dictContains_eq_isSome, hpres, ← dictContains_eq_isSome]
          exact hcf
        exact prepareGroup_removes_tots heq2 hcr1 (by decide) hs
      refine ⟨htrack, hdisc, ?_⟩
      intro hct hcd
      rw [hasNoTotalKeys_iff]
      intro u humem
      simp only [totalSynonymKeys, List.mem_append] at humem
      rcases humem with h | h
      · exact htrack hct u h
      · exact hdisc hcd u h

/-- C3 (witness): the amended invariant applied to a concrete input that
exercises both merge groups. -/
theorem c3_witness :
    hasNoTotalKeys [("tracknumber", ["3/12"]), ("discnumber", ["1/2"])] = true :=
  (c3_amended
    [("tracknumber", ["3"]), ("tracktotal", ["12"]),
     ("discnumber", ["1"]), ("totaldiscs", ["2"])]
    [("tracknumber", ["3/12"]), ("discnumber", ["1/2"])] rfl).2.2 rfl rfl

/-! ## Claim C4: total merging and conflict detection -/

lemma filter_contains_congr {d1 d2 : Tags} :
    ∀ l : List String, (∀ s ∈ l, dictContains d1 s = dictContains d2 s) →
      l.filter (fun s => dictContains d1 s) = l.filter (fun s => dictContains d2 s)
  | [], _ => rfl
  | a :: as, h => by
    have h1 := h a (by simp)
    have h2 := filter_contains_congr as (fun s hs => h s (by simp [hs]))
    simp only [List.filter_cons, h1, h2]

/-- Facts about the dictionary state after the track-group iteration, for
the keys of the disc group: neither the replaygain filter nor the
track-group merge touches the discnumber key or any disc-total synonym. -/
lemma disc_group_transport {tags r1 : Tags}
    (heq1 : prepareGroup (pyFilterTags tags) "tracknumber" trackTots = .ok r1) :
    dictContains r1 "discnumber" = dictContains tags "discnumber"
    ∧ discTots.filter (fun s => dictContains r1 s)
        = discTots.filter (fun s => dictContains tags s)
    ∧ (∀ s ∈ discTots.filter (fun s => dictContains tags s),
        dictGet r1 s = dictGet tags s)
    ∧ dictGet r1 "discnumber" = dictGet tags "discnumber" := by
  have hfind : ∀ k : String, strStartsWith k "replaygain" = false →
      (k == "encoder") = false → (k == "tracknumber") = false →
      trackTots.contains k = false →
      r1.find? (fun p => p.1 == k) = tags.find? (fun p => p.1 == k) := by
    intro k h1 h2 h3 h4
    rw [prepareGroup_find?_preserved k heq1 h3 h4, pyFilter_find?_safe k h1 h2]
  have hconts : ∀ s ∈ discTots, dictContains r1 s = dictContains tags s := by
    intro s hs
    simp only [discTots, List.mem_cons, List.not_mem_nil, or_false] at hs
    rcases hs with rfl | rfl | rfl
    · rw [dictContains_eq_isSome, dictContains_eq_isSome,
        hfind "disctotal" (by decide) (by decide) (by decide) (by decide)]
    · rw [dictContains_eq_isSome, dictContains_eq_isSome,
        hfind "totaldiscs" (by decide) (by decide) (by decide) (by decide)]
    · rw [dictContains_eq_isSome, dictContains_eq_isSome,
        hfind "total discs" (by decide) (by decide) (by decide) (by decide)]
  refine ⟨?_, filter_contains_congr discTots hconts, ?_, ?_⟩
  · rw [dictContains_eq_isSome, dictContains_eq_isSome,
      hfind "discnumber" (by decide) (by decide) (by decide) (by decide)]
  · intro s hs
    have hsm := (List.mem_filter.mp hs).1
    simp only [discTots, List.mem_cons, List.not_mem_nil, or_false] at hsm
    unfold dictGet
    rcases hsm with rfl | rfl | rfl
    · rw [hfind "disctotal" (by decide) (by decide) (by decide) (by decide)]
    · rw [hfind "totaldiscs" (by decide) (by decide) (by decide) (by decide)]
    · rw [hfind "total discs" (by decide) (by decide) (by decide) (by decide)]
  · unfold dictGet
    rw [hfind "discnumber" (by decide) (by decide) (by decide) (by decide)]

/-- C4 (counterexample): when both merge groups conflict, the track group
runs first and its conflict masks the disc conflict: `_prepare_tags` fails
with an error naming only the track synonym keys, even though the disc
primary key is present and its synonyms parse to distinct integers (4 and
5), so the disc instance of the claim - a conflict error naming the
offending (disc) synonym keys - fails. -/
theorem c4_counterexample :
    prepare_tags
        [("tracknumber", ["1"]), ("tracktotal", ["2"]), ("totaltracks", ["3"]),
         ("discnumber", ["1"]), ("disctotal", ["4"]), ("totaldiscs", ["5"])]
      = .error (.conflict ["tracktotal", "totaltracks"])
    ∧ dictContains
        [("tracknumber", ["1"]), ("tracktotal", ["2"]), ("totaltracks", ["3"]),
         ("discnumber", ["1"]), ("disctotal", ["4"]), ("totaldiscs", ["5"])]
        "discnumber" = true
    ∧ parseFirstInt
        [("tracknumber", ["1"]), ("tracktotal", ["2"]), ("totaltracks", ["3"]),
         ("discnumber", ["1"]), ("disctotal", ["4"]), ("totaldiscs", ["5"])]
        "disctotal" = .ok 4
    ∧ parseFirstInt
        [("tracknumber", ["1"]), ("tracktotal", ["2"]), ("totaltracks", ["3"]),
         ("discnumber", ["1"]), ("disctotal", ["4"]), ("totaldiscs", ["5"])]
        "totaldiscs" = .ok 5
    ∧ "disctotal" ∉ (["tracktotal", "totaltracks"] : List String)
    ∧ "totaldiscs" ∉ (["tracktotal", "totaltracks"] : List String) :=
  ⟨rfl, rfl, rfl, rfl, by decide, by decide⟩

/-- C4 (amended): for each merge group whose primary key is present
together with at least one of its total synonyms, if all present synonyms'
first values parse to the same integer `t` then a successful
`_prepare_tags` yields that primary value `number/t` with every synonym
key of the group removed - for the tracknumber group and the discnumber
group alike.  If the parsed integers are not all equal the run fails with
a conflict error, but the groups are processed in the fixed order
tracknumber then discnumber: a track-group conflict is always reported
naming the track synonym keys, while a disc-group conflict is reported
naming the disc synonym keys only when the track-group iteration itself
succeeded (when both conflict, only the track keys are named, as the
counterexample shows).  In particular `tracknumber 3, tracktotal 12` maps
to `tracknumber 3/12`, and adding `totaltracks 11` yields the conflict
error naming both track synonym keys. -/
theorem c4_amended :
    (∀ (tags out : Tags) (t : Int),
        dictContains tags "tracknumber" = true →
        trackTots.filter (fun s => dictContains tags s) ≠ [] →
        (∀ s ∈ trackTots.filter (fun s2 => dictContains tags s2),
            parseFirstInt tags s = .ok t) →
        prepare_tags tags = .ok out →
          dictGet out "tracknumber"
              = [(dictGet tags "tracknumber").headD "" ++ "/" ++ toString t]
            ∧ ∀ s ∈ trackTots, dictContains out s = false)
    ∧ (∀ (tags : Tags) (vs : List Int),
        dictContains tags "tracknumber" = true →
        trackTots.filter (fun s => dictContains tags s) ≠ [] →
        parseTotVals tags (trackTots.filter (fun s => dictContains tags s)) = .ok vs →
        allEqual vs = false →
        prepare_tags tags
          = .error (.conflict (trackTots.filter (fun s => dictContains tags s))))
    ∧ (∀ (tags out : Tags) (t : Int),
        dictContains tags "discnumber" = true →
        discTots.filter (fun s => dictContains tags s) ≠ [] →
        (∀ s ∈ discTots.filter (fun s2 => dictContains tags s2),
            parseFirstInt tags s = .ok t) →
        prepare_tags tags = .ok out →
          dictGet out "discnumber"
              = [(dictGet tags "discnumber").headD "" ++ "/" ++ toString t]
            ∧ ∀ s ∈ discTots, dictContains out s = false)
    ∧ (∀ (tags r1 : Tags) (vs : List Int),
        dictContains tags "discnumber" = true →
        discTots.filter (fun s => dictContains tags s) ≠ [] →
        parseTotVals tags (discTots.filter (fun s => dictContains tags s)) = .ok vs →
        allEqual vs = false →
        prepareGroup (pyFilterTags tags) "tracknumber" trackTots = .ok r1 →
        prepare_tags tags
          = .error (.conflict (discTots.filter (fun s => dictContains tags s))))
    ∧ prepare_tags [("tracknumber", ["3"]), ("tracktotal", ["12"])]
        = .ok [("tracknumber", ["3/12"])]
    ∧ prepare_tags [("tracknumber", ["3"]), ("tracktotal", ["12"]), ("totaltracks", ["11"])]
        = .error (.conflict ["tracktotal", "totaltracks"]) := by
  refine ⟨?_, ?_, ?_, ?_, rfl, rfl⟩
  · intro tags out t hp hne hparse hok
    have hsafe : ∀ s ∈ trackTots.filter (fun s2 => dictContains tags s2),
        dictGet (pyFilterTags tags) s = dictGet tags s := by
      intro s hs
      obtain ⟨hh1, hh2⟩ := trackTots_safe (List.mem_filter.mp hs).1
      exact dictGet_pyFilter s hh1 hh2 tags
    have hpf : dictContains (pyFilterTags tags) "tracknumber" = true := by
      rw [dictContains_pyFilter "tracknumber" (by decide) (by decide)]
      exact hp
    have husedEq := trackUsed_pyFilter tags
    have hconst : parseTotVals tags (trackTots.filter (fun s => dictContains tags s))
        = .ok ((trackTots.filter (fun s => dictContains tags s)).map (fun _ => t)) :=
      parseTotVals_const _ hparse
    have hparseF : parseTotVals (pyFilterTags tags)
        (trackTots.filter (fun s => dictContains (pyFilterTags tags) s))
        = .ok ((trackTots.filter (fun s => dictContains tags s)).map (fun _ => t)) := by
      rw [husedEq, parseTotVals_congr _ hsafe, hconst]
    unfold prepare_tags at hok
    split at hok
    · cases hok
    · rename_i r1 heq1
      split at hok
      · cases hok
      · rename_i r2 heq2
        injection hok with hout
        cases hout.symm
        have heq1' := heq1
        cases hh : (dictGet (pyFilterTags tags) "tracknumber").head? with
        | none =>
          have hemp := prepareGroup_empty_primary hpf (by decide)
            (by rw [husedEq]; exact hne) hparseF (allEqual_map_const t _) hh
          rw [hemp] at heq1'
          cases heq1'
        | some nr =>
          have hshape := prepareGroup_ok_shape hpf (by decide)
            (by rw [husedEq]; exact hne) hparseF (allEqual_map_const t _) hh
          rw [hshape] at heq1'
          injection heq1' with hr1
          have hheadD : ((trackTots.filter (fun s => dictContains tags s)).map
              (fun _ => t)).headD 0 = t :=
            headD_map_const t hne
          constructor
          · have hpres := prepareGroup_find?_preserved "tracknumber" heq2
              (by decide) (by decide)
            have hget2 : dictGet out "tracknumber" = dictGet r1 "tracknumber" := by
              unfold dictGet
              rw [hpres]
            rw [hget2, ← hr1, dictGet_dictSet_self, hheadD]
            have hgetp : dictGet (pyFilterTags tags) "tracknumber"
                = dictGet tags "tracknumber" :=
              dictGet_pyFilter "tracknumber" (by decide) (by decide) tags
            rw [hgetp] at hh
            rw [headD_eq_of_head? hh]
          · intro s hs
            have hs' := hs
            have hrem : dictContains r1 s = false :=
              prepareGroup_removes_tots heq1 hpf (by decide) hs
            have hs2 : (s == "discnumber") = false ∧ discTots.contains s = false := by
              simp only [trackTots, List.mem_cons, List.not_mem_nil, or_false] at hs'
              rcases hs' with rfl | rfl | rfl <;> exact ⟨by decide, by decide⟩
            have hpres := prepareGroup_find?_preserved s heq2 hs2.1 hs2.2
            rw [dictContains_eq_isSome, hpres, ← dictContains_eq_isSome]
            exact hrem
  · intro tags vs hp hne hparse hall
    have hsafe : ∀ s ∈ trackTots.filter (fun s2 => dictContains tags s2),
        dictGet (pyFilterTags tags) s = dictGet tags s := by
      intro s hs
      obtain ⟨hh1, hh2⟩ := trackTots_safe (List.mem_filter.mp hs).1
      exact dictGet_pyFilter s hh1 hh2 tags
    have hpf : dictContains (pyFilterTags tags) "tracknumber" = true := by
      rw [dictContains_pyFilter "tracknumber" (by decide) (by decide)]
      exact hp
    have husedEq := trackUsed_pyFilter tags
    have hparseF : parseTotVals (pyFilterTags tags)
        (trackTots.filter (fun s => dictContains (pyFilterTags tags) s)) = .ok vs := by
      rw [husedEq, parseTotVals_congr _ hsafe]
      exact hparse
    have hconf := prepareGroup_conflict hpf (by rw [husedEq]; exact hne) hparseF hall
    unfold prepare_tags
    rw [hconf, husedEq]
  · intro tags out t hp hne hparse hok
    unfold prepare_tags at hok
    split at hok
    · cases hok
    · rename_i r1 heq1
      split at hok
      · cases hok
      · rename_i r2 heq2
        injection hok with hout
        cases hout.symm
        obtain ⟨hcontr1, husedEq, hgets, hgetd⟩ := disc_group_transport heq1
        have heq2' := heq2
        have hparseR : parseTotVals r1 (discTots.filter (fun s => dictContains r1 s))
            = .ok ((discTots.filter (fun s => dictContains tags s)).map (fun _ => t)) := by
          rw [husedEq, parseTotVals_congr _ hgets]
          exact parseTotVals_const _ hparse
        cases hh : (dictGet r1 "discnumber").head? with
        | none =>
          have hemp := prepareGroup_empty_primary (by rw [hcontr1]; exact hp) (by decide)
            (by rw [husedEq]; exact hne) hparseR (allEqual_map_const t _) hh
          rw [hemp] at heq2'
          cases heq2'
        | some nr =>
          have hshape := prepareGroup_ok_shape (by rw [hcontr1]; exact hp) (by decide)
            (by rw [husedEq]; exact hne) hparseR (allEqual_map_const t _) hh
          rw [hshape] at heq2'
          injection heq2' with hr2
          constructor
          · rw [← hr2, dictGet_dictSet_self, headD_map_const t hne]
            rw [hgetd] at hh
            rw [headD_eq_of_head? hh]
          · intro s hs
            exact prepareGroup_removes_tots heq2 (by rw [hcontr1]; exact hp)
              (by decide) hs
  · intro tags r1 vs hp hne hparse hall heq1
    obtain ⟨hcontr1, husedEq, hgets, -⟩ := disc_group_transport heq1
    have hparseR : parseTotVals r1 (discTots.filter (fun s => dictContains r1 s))
        = .ok vs := by
      rw [husedEq, parseTotVals_congr _ hgets]
      exact hparse
    have hconf := prepareGroup_conflict (by rw [hcontr1]; exact hp)
      (by rw [husedEq]; exact hne) hparseR hall
    unfold prepare_tags
    split
    · rename_i e he
      rw [heq1] at he
      cases he
    · rename_i r1' he
      rw [heq1] at he
      injection he with hr
      subst hr
      split
      · rename_i e2 he2
        rw [hconf] at he2
        injection he2 with h
        rw [← h, husedEq]
      · rename_i r2 he2
        rw [hconf] at he2
        cases he2

/-- C4 (witness): the track merge branch and the disc merge branch applied
to concrete mappings. -/
theorem c4_witness :
    (dictGet [("tracknumber", ["7/13"])] "tracknumber"
        = [(dictGet [("tracknumber", ["7"]), ("total tracks", ["13"])]
            "tracknumber").headD "" ++ "/" ++ toString (13 : Int)]
      ∧ ∀ s ∈ trackTots,
          dictContains [("tracknumber", ["7/13"])] s = false)
    ∧ (dictGet [("discnumber", ["1/2"])] "discnumber"
        = [(dictGet [("discnumber", ["1"]), ("disctotal", ["2"])]
            "discnumber").headD "" ++ "/" ++ toString (2 : Int)]
      ∧ ∀ s ∈ discTots,
          dictContains [("discnumber", ["1/2"])] s = false) :=
  ⟨c4_amended.1 [("tracknumber", ["7"]), ("total tracks", ["13"])]
      [("tracknumber", ["7/13"])] 13 rfl (by decide)
      (by intro s hs
          simp only [show trackTots.filter
              (fun s2 => dictContains [("tracknumber", ["7"]), ("total tracks", ["13"])] s2)
              = ["total tracks"] from rfl, List.mem_singleton] at hs
          subst hs
          rfl)
      rfl,
   c4_amended.2.2.1 [("discnumber", ["1"]), ("disctotal", ["2"])]
      [("discnumber", ["1/2"])] 2 rfl (by decide)
      (by intro s hs
          simp only [show discTots.filter
              (fun s2 => dictContains [("discnumber", ["1"]), ("disctotal", ["2"])] s2)
              = ["disctotal"] from rfl, List.mem_singleton] at hs
          subst hs
          rfl)
      rfl⟩

/-! ## Claim C5: destination-exists short circuit and idempotence -/

/-- C5: when the destination directory computed by the path namer already
exists, `transcode_folder` returns it unchanged without error, runs none
of the collection, sidecar-copy or transcoding phases, and leaves the
filesystem untouched; and after any successful run on a source with at
least one matched audio item or sidecar file, a second run with the same
arguments short-circuits the same way, leaving the first run's destination
untouched. -/
theorem c5_theorem :
    (∀ (fs : FS) (path bitrate : String),
        validate_lossless fs.srcFiles = false →
        fs.dirExists (⟨build_output_path path.toList bitrate.toList⟩ : String) = true →
        transcode_folder fs path bitrate
          = .ok ((⟨build_output_path path.toList bitrate.toList⟩ : String), [], fs))
    ∧ (∀ (fs fs2 : FS) (path bitrate np : String) (steps : List TopStep),
        transcode_folder fs path bitrate = .ok (np, steps, fs2) →
        (collect_transcode_items fs.srcFiles ≠ []
          ∨ fs.srcFiles.any isSidecar = true) →
        transcode_folder fs2 path bitrate = .ok (np, [], fs2)) := by
  constructor
  · intro fs path bitrate hval hdir
    simp only [transcode_folder, hval, Bool.false_eq_true, if_false, hdir, if_true]
  · intro fs fs2 path bitrate np steps hrun hwork
    simp only [transcode_folder] at hrun
    split at hrun
    · cases hrun
    · rename_i hval
      have hvalf : validate_lossless fs.srcFiles = false := by simpa using hval
      split at hrun
      · rename_i hdir
        injection hrun with h
        injection h with h1 h23
        injection h23 with h2 h3
        subst h1
        subst h3
        simp only [transcode_folder, hvalf, Bool.false_eq_true, if_false, hdir, if_true]
      · rename_i hdir
        injection hrun with h
        injection h with h1 h23
        injection h23 with h2 h3
        subst h1
        subst h3
        have hcr : (!(collect_transcode_items fs.srcFiles).isEmpty
            || fs.srcFiles.any isSidecar) = true := by
          rcases hwork with h | h
          · have hie : (collect_transcode_items fs.srcFiles).isEmpty = false := by
              cases hc : collect_transcode_items fs.srcFiles with
              | nil => exact absurd hc h
              | cons x xs => rfl
            simp [hie]
          · simp [h]
        simp only [transcode_folder, hvalf, Bool.false_eq_true, if_false,
          beq_self_eq_true, hcr, Bool.true_or, if_true]

/-- C5 (witness): the destination-exists short circuit at a concrete
filesystem and path. -/
theorem c5_witness :
    transcode_folder c5fs "/m/Abc [FLAC]" "V0"
      = .ok ((⟨build_output_path "/m/Abc [FLAC]".toList "V0".toList⟩ : String),
          [], c5fs) :=
  c5_theorem.1 c5fs "/m/Abc [FLAC]" "V0" (by decide) (by decide)

/-! ## Claims C6 and C7: the channel guard and the temporary file -/

lemma flacToMp3Body_spawn (env : ConvEnv) (q f m tp : String) :
    ConvEvent.spawn (flacDecodeCmd tp f) ∈ (flacToMp3Body env q f m tp).2.1
      ∧ (flacToMp3Body env q f m tp).2.2 = true := by
  unfold flacToMp3Body
  split
  · exact ⟨by simp, rfl⟩
  · split
    · exact ⟨by simp, rfl⟩
    · split
      · exact ⟨by simp, rfl⟩
      · exact ⟨by simp, rfl⟩

lemma spawn_flac_mem (env : ConvEnv) (q f m tp : String) :
    ConvEvent.spawn (flacDecodeCmd tp f) ∈ (flac_to_mp3 env q f m tp).events := by
  obtain ⟨h1, h2⟩ := flacToMp3Body_spawn env q f m tp
  unfold flac_to_mp3 finallyCleanup
  simp only [h2, if_true]
  exact List.mem_cons_of_mem _ (List.mem_append_left _ h1)

/-- C6: an item whose source has more than two channels fails with the
channel-count error naming the file and its channel count, with no event
at all - in particular before any process spawn, so no destination audio
file is created for it; an item with at most two channels passes the
guard unaffected and the decoder is spawned for it. -/
theorem c6_theorem :
    (∀ (env : ConvEnv) (channels : Nat) (bitrate src dst tmp : String),
        channels > 2 →
        transcode_one env channels bitrate src dst tmp
          = ConvOutcome.mk
              (some (.valueError (src ++ " has " ++ toString channels
                ++ " channels. Cannot convert to MP3.")))
              [] false)
    ∧ (∀ (env : ConvEnv) (channels : Nat) (bitrate src dst tmp : String),
        channels ≤ 2 →
        ConvEvent.spawn (flacDecodeCmd tmp src)
          ∈ (transcode_one env channels bitrate src dst tmp).events) := by
  constructor
  · intro env channels bitrate src dst tmp h
    simp [transcode_one, h]
  · intro env channels bitrate src dst tmp h
    have h2 : ¬ channels > 2 := by omega
    have hmem := spawn_flac_mem env bitrate src dst tmp
    simp only [transcode_one, h2, if_false]
    split
    · simp [hmem]
    · simp [hmem]

/-- C6 (witness): the channel guard at a concrete six-channel item. -/
theorem c6_witness :
    transcode_one (ConvEnv.mk (ProcResult.mk 0 "") (ProcResult.mk 0 "")) 6
        "V0" "a.flac" "b.mp3" "t.wav"
      = ConvOutcome.mk
          (some (.valueError "a.flac has 6 channels. Cannot convert to MP3."))
          [] false :=
  c6_theorem.1 (ConvEnv.mk (ProcResult.mk 0 "") (ProcResult.mk 0 "")) 6
    "V0" "a.flac" "b.mp3" "t.wav" (by decide)

/-- C7 (counterexample): on decoder failure the raised error carries the
decoder's exit code, not its captured stderr: with stderr `boom` the error
text does not contain it; the stderr is echoed to the console instead. -/
theorem c7_counterexample :
    (flac_to_mp3 (ConvEnv.mk (ProcResult.mk 1 "boom") (ProcResult.mk 0 ""))
        "V0" "in.flac" "out.mp3" "tmp.wav").result
        = some (.runtime "FLAC decoding failed with code 1")
      ∧ strContains "FLAC decoding failed with code 1" "boom" = false
      ∧ ConvEvent.echo "boom"
          ∈ (flac_to_mp3 (ConvEnv.mk (ProcResult.mk 1 "boom") (ProcResult.mk 0 ""))
              "V0" "in.flac" "out.mp3" "tmp.wav").events := by
  refine ⟨rfl, rfl, ?_⟩
  simp [flac_to_mp3, flacToMp3Body, finallyCleanup, flacDecodeCmd]

/-- C7 (amended): the temporary file is removed on every exit path of the
pipeline - success, decoder failure, encoder failure or unknown-label
lookup failure - and never exists after the call.  On encoder failure the
raised error carries the encoder's captured stderr (or a fixed message
when it is empty); on decoder failure the raised error carries the exit
code while the decoder's stderr is echoed to the console, not carried in
the error. -/
theorem c7_amended :
    (∀ (env : ConvEnv) (q f m tp : String),
        (flac_to_mp3 env q f m tp).tmpExistsAfter = false
          ∧ ConvEvent.unlinkTmp tp ∈ (flac_to_mp3 env q f m tp).events)
    ∧ (∀ (env : ConvEnv) (q f m tp : String),
        env.flacProc.returncode ≠ 0 →
          (flac_to_mp3 env q f m tp).result
              = some (.runtime ("FLAC decoding failed with code "
                  ++ toString env.flacProc.returncode))
            ∧ (env.flacProc.stderr ≠ "" →
                ConvEvent.echo env.flacProc.stderr
                  ∈ (flac_to_mp3 env q f m tp).events))
    ∧ (∀ (env : ConvEnv) (q f m tp : String) (flags : List String),
        env.flacProc.returncode = 0 →
        LAME_COMMAND_MAP.find? (fun p => p.1 == q) = some (q, flags) →
        env.lameProc.returncode ≠ 0 →
          (flac_to_mp3 env q f m tp).result
            = some (.runtime (if env.lameProc.stderr != "" then env.lameProc.stderr
                else "LAME encoding failed")))
    ∧ (∀ (env : ConvEnv) (q f m tp : String) (flags : List String),
        env.flacProc.returncode = 0 →
        LAME_COMMAND_MAP.find? (fun p => p.1 == q) = some (q, flags) →
        env.lameProc.returncode = 0 →
          (flac_to_mp3 env q f m tp).result = none) := by
  refine ⟨?_, ?_, ?_, ?_⟩
  · intro env q f m tp
    obtain ⟨-, h2⟩ := flacToMp3Body_spawn env q f m tp
    unfold flac_to_mp3 finallyCleanup
    simp only [h2, if_true]
    exact ⟨by simp, by simp⟩
  · intro env q f m tp hrc
    have hb : (env.flacProc.returncode != 0) = true := by simpa using hrc
    constructor
    · simp [flac_to_mp3, flacToMp3Body, hb]
    · intro hstd
      have hb2 : (env.flacProc.stderr != "") = true := by simpa using hstd
      simp [flac_to_mp3, flacToMp3Body, finallyCleanup, hb, hb2]
  · intro env q f m tp flags hrc0 hfind hlrc
    have hb : (env.flacProc.returncode != 0) = false := by simp [hrc0]
    have hbl : (env.lameProc.returncode != 0) = true := by simpa using hlrc
    simp [flac_to_mp3, flacToMp3Body, hb, hfind, hbl]
  · intro env q f m tp flags hrc0 hfind hlrc
    have hb : (env.flacProc.returncode != 0) = false := by simp [hrc0]
    have hbl : (env.lameProc.returncode != 0) = false := by simp [hlrc]
    simp [flac_to_mp3, flacToMp3Body, hb, hfind, hbl]

/-- C7 (witness): the cleanup and the two failure shapes at concrete
environments. -/
theorem c7_witness :
    ((flac_to_mp3 (ConvEnv.mk (ProcResult.mk 2 "bad") (ProcResult.mk 0 ""))
        "320" "i.flac" "o.mp3" "t.wav").tmpExistsAfter = false
      ∧ ConvEvent.unlinkTmp "t.wav"
          ∈ (flac_to_mp3 (ConvEnv.mk (ProcResult.mk 2 "bad") (ProcResult.mk 0 ""))
              "320" "i.flac" "o.mp3" "t.wav").events)
    ∧ (flac_to_mp3 (ConvEnv.mk (ProcResult.mk 2 "bad") (ProcResult.mk 0 ""))
          "320" "i.flac" "o.mp3" "t.wav").result
        = some (.runtime "FLAC decoding failed with code 2")
    ∧ (flac_to_mp3 (ConvEnv.mk (ProcResult.mk 0 "") (ProcResult.mk 3 "enc err"))
          "320" "i.flac" "o.mp3" "t.wav").result
        = some (.runtime "enc err")
    ∧ (flac_to_mp3 (ConvEnv.mk (ProcResult.mk 0 "") (ProcResult.mk 0 ""))
          "320" "i.flac" "o.mp3" "t.wav").result = none :=
  ⟨c7_amended.1 (ConvEnv.mk (ProcResult.mk 2 "bad") (ProcResult.mk 0 ""))
      "320" "i.flac" "o.mp3" "t.wav",
   (c7_amended.2.1 (ConvEnv.mk (ProcResult.mk 2 "bad") (ProcResult.mk 0 ""))
      "320" "i.flac" "o.mp3" "t.wav" (by decide)).1,
   c7_amended.2.2.1 (ConvEnv.mk (ProcResult.mk 0 "") (ProcResult.mk 3 "enc err"))
      "320" "i.flac" "o.mp3" "t.wav" ["-b", "320", "-h"] rfl rfl (by decide),
   c7_amended.2.2.2 (ConvEnv.mk (ProcResult.mk 0 "") (ProcResult.mk 0 ""))
      "320" "i.flac" "o.mp3" "t.wav" ["-b", "320", "-h"] rfl rfl rfl⟩

/-! ## Claim C8: the tag writer -/

/-- C8: for every normalized tag key the tag writer adds either a text
frame of the mapped identifier (when the key is in the known
vorbis-to-id3 mapping) or a TXXX frame whose description is the key, in
both cases carrying the full value sequence; every embedded picture of the
source handle is added as an APIC frame preserving mime type, image-type
code, description and raw bytes; and the file is saved with no id3v1 tag
and the fixed id3v2 version. -/
theorem c8_theorem :
    (∀ (k : String) (v : List String) (p : String × String),
        VORBIS_TO_ID3_MAP.find? (fun q => q.1 == k) = some p →
        get_id3_frame k v = .text p.2 v)
    ∧ (∀ (k : String) (v : List String),
        VORBIS_TO_ID3_MAP.find? (fun q => q.1 == k) = none →
        get_id3_frame k v = .txxx k v)
    ∧ (∀ (tagDict : Tags) (pictures : List FlacPicture) (k : String) (v : List String),
        (k, v) ∈ tagDict → get_id3_frame k v ∈ (copy_tags tagDict pictures).1)
    ∧ (∀ (tagDict : Tags) (pictures : List FlacPicture) (pic : FlacPicture),
        pic ∈ pictures →
        ID3Frame.apic pic.mime pic.picType pic.desc pic.dat
          ∈ (copy_tags tagDict pictures).1)
    ∧ (∀ (tagDict : Tags) (pictures : List FlacPicture),
        (copy_tags tagDict pictures).2 = SaveArgs.mk 0 ID3V2_VERSION) := by
  refine ⟨?_, ?_, ?_, ?_, fun _ _ => rfl⟩
  · intro k v p hf
    unfold get_id3_frame
    rw [hf]
  · intro k v hf
    unfold get_id3_frame
    rw [hf]
  · intro tagDict pictures k v hmem
    unfold copy_tags
    apply List.mem_append_left
    simpa using List.mem_map_of_mem (fun p => get_id3_frame p.1 p.2) hmem
  · intro tagDict pictures pic hmem
    unfold copy_tags
    exact List.mem_append_right _ (List.mem_map_of_mem _ hmem)

/-- C8 (witness): the four frame shapes at concrete inputs. -/
theorem c8_witness :
    get_id3_frame "title" ["T"] = ID3Frame.text "TIT2" ["T"]
      ∧ get_id3_frame "weird" ["x"] = ID3Frame.txxx "weird" ["x"]
      ∧ get_id3_frame "title" ["T"]
          ∈ (copy_tags [("title", ["T"])] [FlacPicture.mk "image/jpeg" 3 "cov" [7]]).1
      ∧ ID3Frame.apic "image/jpeg" 3 "cov" [7]
          ∈ (copy_tags [("title", ["T"])] [FlacPicture.mk "image/jpeg" 3 "cov" [7]]).1 :=
  ⟨c8_theorem.1 "title" ["T"] ("title", "TIT2") rfl,
   c8_theorem.2.1 "weird" ["x"] rfl,
   c8_theorem.2.2.1 [("title", ["T"])] [FlacPicture.mk "image/jpeg" 3 "cov" [7]]
     "title" ["T"] (by simp),
   c8_theorem.2.2.2.1 [("title", ["T"])] [FlacPicture.mk "image/jpeg" 3 "cov" [7]]
     (FlacPicture.mk "image/jpeg" 3 "cov" [7]) (by simp)⟩

/-! ## Claim C9: the description generator -/

/-- C9 (counterexample): the engine spawns `flac -Vdsc -o tmp src` and
`lame <preset> --quiet --add-id3v2 --ignore-tag-errors tmp dst`, but the
description block contains neither the decoder flag `-Vdsc` nor the
encoder options `--add-id3v2` and `--quiet`: it shows a different pipeline
(`flac -dcs ... | lame -S ...`), so the embedded command lines are not the
ones actually used. -/
theorem c9_counterexample :
    (flac_to_mp3 (ConvEnv.mk (ProcResult.mk 0 "") (ProcResult.mk 0 ""))
        "320" "input.flac" "output.mp3" "temp.wav").events
      = [ConvEvent.mkdirParent "",
         ConvEvent.spawn (flacDecodeCmd "temp.wav" "input.flac"),
         ConvEvent.spawn (lameEncodeCmd ["-b", "320", "-h"] "temp.wav" "output.mp3"),
         ConvEvent.unlinkTmp "temp.wav"]
      ∧ "-Vdsc" ∈ flacDecodeCmd "temp.wav" "input.flac"
      ∧ "--add-id3v2" ∈ lameEncodeCmd ["-b", "320", "-h"] "temp.wav" "output.mp3"
      ∧ "--quiet" ∈ lameEncodeCmd ["-b", "320", "-h"] "temp.wav" "output.mp3"
      ∧ strContains ((generate_transcode_description "URL" "320").getD "") "-Vdsc"
          = false
      ∧ strContains ((generate_transcode_description "URL" "320").getD "") "--add-id3v2"
          = false
      ∧ strContains ((generate_transcode_description "URL" "320").getD "") "--quiet"
          = false := by
  refine ⟨rfl, by decide, by decide, by decide, by decide, by decide, by decide⟩

/-- C9 (amended): the description generator returns, for each label, a
fixed text block embedding a shell-pipeline rendition of the process whose
lame quality flags agree with the engine's preset for that label up to
ordering, but whose decoder flags, auxiliary encoder options and
invocation structure differ from the commands the engine actually
spawns. -/
theorem c9_amended :
    (∀ url : String,
        generate_transcode_description url "320"
          = some ("[b]Source:[/b] " ++ url
              ++ "\n[b]Transcode process:[/b] [code]flac -dcs -- input.flac | lame -S "
              ++ "-h -b 320 --ignore-tag-errors" ++ " - output.mp3[/code]\n")
        ∧ generate_transcode_description url "V0"
          = some ("[b]Source:[/b] " ++ url
              ++ "\n[b]Transcode process:[/b] [code]flac -dcs -- input.flac | lame -S "
              ++ "-V 0 --vbr-new --ignore-tag-errors" ++ " - output.mp3[/code]\n"))
    ∧ List.Perm ["-h", "-b", "320"]
        (((LAME_COMMAND_MAP.find? (fun p => p.1 == "320")).map Prod.snd).getD [])
    ∧ ["-V", "0", "--vbr-new"]
        = ((LAME_COMMAND_MAP.find? (fun p => p.1 == "V0")).map Prod.snd).getD [] := by
  refine ⟨fun url => ⟨rfl, rfl⟩, by decide, rfl⟩

/-- C9 (witness): the amended description shapes at a concrete URL. -/
theorem c9_witness :
    generate_transcode_description "https://example.org/t/1" "320"
      = some ("[b]Source:[/b] " ++ "https://example.org/t/1"
          ++ "\n[b]Transcode process:[/b] [code]flac -dcs -- input.flac | lame -S "
          ++ "-h -b 320 --ignore-tag-errors" ++ " - output.mp3[/code]\n") :=
  (c9_amended.1 "https://example.org/t/1").1

/-! ## Claim C10: case sensitivity of the collector -/

lemma mem_insertSorted {x a : String} :
    ∀ l : List String, x ∈ insertSorted a l ↔ x = a ∨ x ∈ l
  | [] => by simp [insertSorted]
  | b :: bs => by
    unfold insertSorted
    split
    · simp
    · rw [List.mem_cons, mem_insertSorted bs, List.mem_cons]
      tauto

lemma mem_sortStrings {x : String} :
    ∀ l : List String, x ∈ sortStrings l ↔ x ∈ l
  | [] => Iff.rfl
  | a :: as => by
    unfold sortStrings
    rw [mem_insertSorted (sortStrings as), mem_sortStrings as, List.mem_cons]

/-- C10: the collector matches only files whose final component ends in
the lowercase extension `.flac`; a file named with `.FLAC` produces no
work item (and hence no destination audio file), while the lossless
validator and the sidecar copier lowercase extensions before their set
tests and so accept uppercase `.MP3` and `.JPG`. -/
theorem c10_theorem :
    (∀ (files : List String) (f dst : String),
        (f, dst) ∈ collect_transcode_items files →
        strEndsWith (lastComponent f) ".flac" = true)
    ∧ collect_transcode_items ["01 Track.FLAC"] = []
    ∧ collect_transcode_items ["01 Track.flac"] = [("01 Track.flac", "01 Track.mp3")]
    ∧ validate_lossless ["sub/x.MP3"] = true
    ∧ isSidecar "art/COVER.JPG" = true := by
  refine ⟨?_, rfl, rfl, rfl, rfl⟩
  intro files f dst hmem
  unfold collect_transcode_items at hmem
  obtain ⟨x, hx, hxeq⟩ := List.mem_map.mp hmem
  have hxf : x = f := congrArg Prod.fst hxeq
  subst hxf
  have hx2 : x ∈ files.filter matchesFlacGlob := (mem_sortStrings _).mp hx
  have hglob := (List.mem_filter.mp hx2).2
  simpa [matchesFlacGlob] using hglob

/-- C10 (witness): the only-lowercase-matches property at a concrete
tree. -/
theorem c10_witness :
    strEndsWith (lastComponent "d/01 Track.flac") ".flac" = true :=
  c10_theorem.1 ["d/01 Track.flac"] "d/01 Track.flac" "d/01 Track.mp3" (by decide)

end SmokedSalmon

